import Mathlib

/-!
Verification of the datalake blob-storage worker (blob.ts and the worker entry file).

The embedding translates the handlers of blob.ts into pure Lean functions over an
explicit state: the metadata store (data rows and blob rows), the object store
(bucket objects keyed by location and filename), the edge response cache, traces of
triggered media operations and attempted bucket deletes, and a counter supplying
generated identifiers. External collaborators whose sources are not under src
(db.ts, hash.ts, storage.ts, encodings.ts, const.ts, video.ts) are modelled from
the spec, each marked in its doc comment. Fallible external I/O (bucket put and
delete, media copy, metadata-store failure) is driven by an explicit oracle.
-/

namespace Datalake

/-- UUID-shaped identifiers are modelled as natural numbers. -/
abbrev UUID := Nat

/-- Byte streams and buffers are modelled as lists of naturals. -/
abbrev Bytes := List Nat

/-- Content-addressed data row: key (hash, location), payload filename, type, size. -/
structure DataRow where
  hash : UUID
  location : String
  filename : UUID
  type : String
  size : Nat
deriving Repr, DecidableEq

/-- Name-addressed blob row: key (workspace, name), pointer (hash, location), soft-delete flag. -/
structure BlobRow where
  workspace : String
  name : String
  hash : UUID
  location : String
  deleted : Bool
deriving Repr, DecidableEq

/-- HTTP metadata stored with a bucket object, as used by blob.ts. -/
structure HttpMetadata where
  contentType : Option String
  cacheControl : Option String
  lastModified : Nat
deriving Repr, DecidableEq

/-- A physical bucket object: content bytes, stored HTTP metadata, the md5 checksum
the bucket reports on head (absent for multipart uploads), upload time and etag. -/
structure R2Obj where
  content : Bytes
  httpMetadata : Option HttpMetadata
  md5 : Option Bytes
  uploaded : Nat
  httpEtag : String
deriving Repr, DecidableEq

/-- The metadata record saveBlob returns on success (interface BlobMetadata in blob.ts). -/
structure BlobMetadata where
  lastModified : Nat
  type : String
  size : Nat
  name : String
deriving Repr, DecidableEq

/-- An HTTP response: status, header list, optional body bytes. -/
structure Response where
  status : Nat
  headers : List (String × String)
  body : Option Bytes
deriving Repr, DecidableEq

/-- One file part of a multipart form-data upload batch. -/
structure FormFile where
  key : String
  name : String
  type : String
  lastModified : Nat
  size : Nat
  content : Bytes
deriving Repr, DecidableEq

/-- The whole world the handlers act on: metadata store, bucket objects keyed by
(location, filename), edge response cache keyed by URL, a trace of triggered video
copies (workspace, name, succeeded), a trace of triggered video deletions, a trace
of attempted bucket deletes (location, filename), and the generator counter backing
crypto.randomUUID. -/
structure State where
  dataRows : List DataRow
  blobRows : List BlobRow
  objects : List ((String × UUID) × R2Obj)
  cache : List (String × Response)
  copies : List (String × String × Bool)
  videoDeletes : List (String × String)
  deletes : List (String × UUID)
  rng : Nat
deriving Repr, DecidableEq

/-- Failure oracle for external I/O: whether a bucket put of a given filename fails,
whether a bucket delete of a given filename fails, whether the media copy for a given
name fails, and whether the metadata-store round trip of the delete handler throws. -/
structure Oracle where
  putFails : UUID → Bool
  deleteFails : UUID → Bool
  copyVideoFails : String → Bool
  dbThrows : Bool

/-- Modelled from the spec: the Hasher computes a 256-bit streaming digest of the
content bytes, encoded as a fixed-length UUID-shaped identifier derived
deterministically from the digest (hash.ts is not under src). Only determinism in
the content is relied upon. -/
def getSha256 (content : Bytes) : UUID :=
  content.foldl (fun a b => a * 256 + b + 1) 1

/-- Modelled from the spec: the bucket-provided checksum is a digest derived
deterministically from the content bytes. -/
def md5Digest (content : Bytes) : Bytes :=
  [content.foldl (fun a b => a * 256 + b + 1) 2]

/-- Modelled from the spec: a digest buffer is encoded as a deterministic
UUID-shaped identifier (encodings.ts is not under src). -/
def digestToUUID (digest : Bytes) : UUID :=
  digest.foldl (fun a b => a * 256 + b + 1) 0

/-- Modelled from the spec: the Location Selector is a pure, total, deterministic
map from a tenant namespace to its shard (storage.ts is not under src). Only
determinism is relied upon, so the identity map serves as the shard map. -/
def selectStorage (workspace : String) : String :=
  workspace

/-- Modelled from the spec: the fixed size threshold T selecting the small or the
large ingestion path (const.ts is not under src). -/
def hashLimit : Nat := 1048576

/-- Modelled from the spec: the static cache-control header value (const.ts is not
under src). -/
def cacheControl : String := "public,max-age=31536000,immutable"

/-- Date.toUTCString is opaque to the model; any deterministic rendering works. -/
def toUTCString (t : Nat) : String :=
  Nat.repr t

/-- Modelled from the spec: db.getData looks up the data row keyed by
(hash, location); at most one row exists per key (db.ts is not under src). -/
def getData (rows : List DataRow) (hash : UUID) (location : String) : Option DataRow :=
  rows.find? (fun r => r.hash == hash && r.location == location)

/-- Modelled from the spec: db.createData is an idempotent insert-if-absent on the
key (hash, location); a second attempt to create the same key is a no-op (db.ts is
not under src). -/
def createData (rows : List DataRow) (row : DataRow) : List DataRow :=
  match getData rows row.hash row.location with
  | some _ => rows
  | none => row :: rows

/-- Modelled from the spec: blob rows are looked up by their key (workspace, name). -/
def getBlobRow (rows : List BlobRow) (workspace name : String) : Option BlobRow :=
  rows.find? (fun r => r.workspace == workspace && r.name == name)

/-- Modelled from the spec: db.createBlob upserts the blob row for (workspace, name),
repointing it at (hash, location) with the deleted flag cleared (db.ts is not under
src). -/
def createBlob (rows : List BlobRow) (workspace name : String) (hash : UUID)
    (location : String) : List BlobRow :=
  { workspace := workspace, name := name, hash := hash, location := location, deleted := false } ::
    rows.filter (fun r => !(r.workspace == workspace && r.name == name))

/-- Modelled from the spec: db.deleteBlob marks the blob row for (workspace, name)
soft-deleted; it does not remove rows and does not fail when no row exists (db.ts is
not under src). -/
def deleteBlob (rows : List BlobRow) (workspace name : String) : List BlobRow :=
  rows.map (fun r =>
    if r.workspace == workspace && r.name == name then { r with deleted := true } else r)

/-- Number of data rows stored for the key (hash, location). -/
def countData (rows : List DataRow) (hash : UUID) (location : String) : Nat :=
  (rows.filter (fun r => r.hash == hash && r.location == location)).length

/-- Whether some blob row (deleted or not) exists for the key (workspace, name). -/
def blobKeyPresent (st : State) (workspace name : String) : Bool :=
  (getBlobRow st.blobRows workspace name).isSome

/-- Bucket object lookup by (location, filename). -/
def getObject (objects : List ((String × UUID) × R2Obj)) (location : String)
    (filename : UUID) : Option R2Obj :=
  (objects.find? (fun e => e.1.1 == location && e.1.2 == filename)).map (fun e => e.2)

/-- Bucket put: store the object under (location, filename), replacing any previous
object under that key. -/
def putObject (st : State) (location : String) (filename : UUID) (obj : R2Obj) : State :=
  { st with objects :=
      ((location, filename), obj) ::
        st.objects.filter (fun e => !(e.1.1 == location && e.1.2 == filename)) }

/-- Bucket delete: the attempt is always recorded in the trace; the object is
removed only when the oracle lets the delete succeed. Returns whether it succeeded. -/
def bucketDelete (o : Oracle) (st : State) (location : String) (filename : UUID) :
    Bool × State :=
  let st1 := { st with deletes := (location, filename) :: st.deletes }
  let removed := st1.objects.filter (fun e => !(e.1.1 == location && e.1.2 == filename))
  if o.deleteFails filename then (false, st1)
  else (true, { st1 with objects := removed })

/-- The counter models crypto.randomUUID: each call returns the next value. -/
def randomUUID (st : State) : UUID × State :=
  (st.rng, { st with rng := st.rng + 1 })

/-- getUniqueFilename in blob.ts draws a fresh random UUID. -/
def getUniqueFilename (st : State) : UUID × State :=
  randomUUID st

/-- An R2Range value as blob.ts inspects it: optional offset, length and suffix
fields, mirroring the three in-checks of rangeHeader. -/
structure R2Range where
  offset : Option Nat
  length : Option Nat
  suffixLen : Option Nat
deriving Repr, DecidableEq

/-- Head metadata of a bucket object as r2MetadataHeaders consumes it. -/
structure R2HeadInfo where
  size : Nat
  httpMetadata : Option HttpMetadata
  uploaded : Nat
  httpEtag : String
deriving Repr, DecidableEq

/-- Result of a bucket range get: the served body, the resolved range (absent for a
full read) and the head metadata, whose size is the full object size. -/
structure R2GetResult where
  body : Bytes
  range : Option R2Range
  head : R2HeadInfo
deriving Repr, DecidableEq

/-- Head metadata of a stored object. -/
def headInfo (obj : R2Obj) : R2HeadInfo :=
  { size := obj.content.length, httpMetadata := obj.httpMetadata,
    uploaded := obj.uploaded, httpEtag := obj.httpEtag }

/-- Bucket head by (location, filename). -/
def bucketHead (st : State) (location : String) (filename : UUID) : Option R2HeadInfo :=
  (getObject st.objects location filename).map headInfo

/-- Bucket get with an optional byte range, given as the resolved (offset, length)
pair the bucket derives from the Range header. A range reaching past the end of the
object is not satisfiable and yields no object. -/
def bucketGet (st : State) (location : String) (filename : UUID)
    (range : Option (Nat × Nat)) : Option R2GetResult :=
  match getObject st.objects location filename with
  | none => none
  | some obj =>
    match range with
    | none => some { body := obj.content, range := none, head := headInfo obj }
    | some (off, len) =>
      if off + len ≤ obj.content.length then
        some { body := (obj.content.drop off).take len,
               range := some { offset := some off, length := some len, suffixLen := none },
               head := headInfo obj }
      else none

/-- rangeHeader of blob.ts: renders the Content-Range value from the resolved range
and the full size. -/
def rangeHeader (range : R2Range) (size : Nat) : String :=
  let offset := range.offset
  let length := range.length
  let suffixLen := range.suffixLen
  let start :=
    match suffixLen with
    | some s => size - s
    | none => offset.getD 0
  let stop :=
    match suffixLen with
    | some _ => size
    | none =>
      match length with
      | some l => start + l
      | none => size
  "bytes " ++ Nat.repr start ++ "-" ++ Nat.repr (stop - 1) ++ "/" ++ Nat.repr size

/-- r2MetadataHeaders of blob.ts: the header list built from bucket head metadata.
Note that Content-Length is always rendered from head.size, the full object size. -/
def r2MetadataHeaders (head : R2HeadInfo) : List (String × String) :=
  match head.httpMetadata with
  | some m =>
    [("Accept-Ranges", "bytes"),
     ("Content-Length", Nat.repr head.size),
     ("Content-Type", m.contentType.getD ""),
     ("Content-Security-Policy", "default-src \x27none\x27;"),
     ("Cache-Control", m.cacheControl.getD cacheControl),
     ("Last-Modified", toUTCString head.uploaded),
     ("ETag", head.httpEtag)]
  | none =>
    [("Accept-Ranges", "bytes"),
     ("Content-Length", Nat.repr head.size),
     ("Content-Security-Policy", "default-src \x27none\x27;"),
     ("Cache-Control", cacheControl),
     ("Last-Modified", toUTCString head.uploaded),
     ("ETag", head.httpEtag)]

/-- Headers.set: replace the value under a name, or append it when absent. -/
def headersSet (headers : List (String × String)) (key value : String) :
    List (String × String) :=
  if headers.any (fun e => e.1 == key) then
    headers.map (fun e => if e.1 == key then (key, value) else e)
  else headers ++ [(key, value)]

/-- First value stored under a header name. -/
def headerValue (headers : List (String × String)) (key : String) : Option String :=
  (headers.find? (fun e => e.1 == key)).map (fun e => e.2)

/-- A blob request: workspace, name, and the resolved byte range of an optional
Range header. -/
structure BlobReq where
  workspace : String
  name : String
  range : Option (Nat × Nat)
deriving Repr, DecidableEq

/-- getBlobURL of blob.ts, which also keys the edge response cache. -/
def blobURL (workspace name : String) : String :=
  "/blob/" ++ workspace ++ "/" ++ name

/-- Edge cache lookup by URL. -/
def cacheMatch (cache : List (String × Response)) (url : String) : Option Response :=
  (cache.find? (fun e => e.1 == url)).map (fun e => e.2)

/-- The 404 response produced by the router error helper. -/
def response404 : Response :=
  { status := 404, headers := [], body := none }

/-- Joined view returned by db.getBlob: the blob row for (workspace, name) together
with the physical filename of its data row. Modelled from the spec: name resolution
goes name to content pointer to physical object (db.ts is not under src). -/
structure BlobJoined where
  hash : UUID
  location : String
  filename : UUID
  deleted : Bool
deriving Repr, DecidableEq

/-- Modelled from the spec: db.getBlob resolves the (workspace, name) blob row and
exposes its data row filename and deleted flag (db.ts is not under src). -/
def dbGetBlob (st : State) (workspace name : String) : Option BlobJoined :=
  match getBlobRow st.blobRows workspace name with
  | none => none
  | some b =>
    match getData st.dataRows b.hash b.location with
    | none => none
    | some d =>
      some { hash := b.hash, location := b.location, filename := d.filename,
             deleted := b.deleted }

/-- handleBlobGet of blob.ts: serve a cached response when the URL is cached;
otherwise resolve the blob (404 when absent or soft-deleted), fetch the object with
the optional range, build headers via r2MetadataHeaders, add Content-Range for a
ranged read, answer 206 when the resolved range length is below the full size and
200 otherwise, and insert 200 responses into the edge cache. -/
def handleBlobGet (st : State) (req : BlobReq) : Response × State :=
  let url := blobURL req.workspace req.name
  match cacheMatch st.cache url with
  | some resp => (resp, st)
  | none =>
    let location := selectStorage req.workspace
    match dbGetBlob st req.workspace req.name with
    | none => (response404, st)
    | some blob =>
      if blob.deleted then (response404, st)
      else
        match bucketGet st location blob.filename req.range with
        | none => (response404, st)
        | some object =>
          let headers0 := r2MetadataHeaders object.head
          let headers :=
            match req.range, object.range with
            | some _, some r => headersSet headers0 ("Content-Range") (rangeHeader r object.head.size)
            | _, _ => headers0
          let lengthOpt :=
            match object.range with
            | some r => r.length
            | none => none
          let status :=
            match lengthOpt with
            | some l => if l < object.head.size then 206 else 200
            | none => 200
          let resp : Response := { status := status, headers := headers, body := some object.body }
          (resp, if status == 200 then { st with cache := (url, resp) :: st.cache } else st)

/-- handleBlobHead of blob.ts: resolve the blob (404 when absent or soft-deleted),
head the object (404 when the object or its stored metadata is missing), and answer
200 with the metadata headers and no body. -/
def handleBlobHead (st : State) (req : BlobReq) : Response :=
  match dbGetBlob st req.workspace req.name with
  | none => response404
  | some blob =>
    if blob.deleted then response404
    else
      match bucketHead st (selectStorage req.workspace) blob.filename with
      | none => response404
      | some head =>
        match head.httpMetadata with
        | none => response404
        | some _ => { status := 200, headers := r2MetadataHeaders head, body := none }

/-- Modelled from the spec: deleteVideo best-effort triggers deletion of derived
media artifacts; the trigger is recorded (video.ts is not under src). -/
def deleteVideo (st : State) (workspace name : String) : State :=
  { st with videoDeletes := (workspace, name) :: st.videoDeletes }

/-- handleBlobDelete of blob.ts: run db.deleteBlob and deleteVideo; answer 204 with
an empty body when they complete, 500 when the round trip throws. There is no
existence check on the name. -/
def handleBlobDelete (o : Oracle) (st : State) (req : BlobReq) : Response × State :=
  if o.dbThrows then ({ status := 500, headers := [], body := none }, st)
  else
    let st1 := { st with blobRows := deleteBlob st.blobRows req.workspace req.name }
    let st2 := deleteVideo st1 req.workspace req.name
    ({ status := 204, headers := [], body := none }, st2)

/-- The object saveBlob stores on a bucket put. -/
def mkObj (content : Bytes) (hm : HttpMetadata) : R2Obj :=
  { content := content, httpMetadata := some hm, md5 := some (md5Digest content),
    uploaded := hm.lastModified, httpEtag := Nat.repr (digestToUUID (md5Digest content)) }

/-- saveBlob of blob.ts. Small path (size at most hashLimit): hash first; on an
existing data row only upsert the blob row, otherwise put the object under the fresh
filename and commit the data insert plus blob upsert together. Large path: put
first while digesting, then on an existing data row upsert the blob row and delete
the fresh object (a delete failure propagates as the handler awaits it), otherwise
commit the data insert plus blob upsert together. -/
def saveBlob (o : Oracle) (st : State) (content : Bytes) (size : Nat)
    (type workspace name : String) (lastModified : Nat) :
    (Except String BlobMetadata) × State :=
  let location := selectStorage workspace
  let httpMetadata : HttpMetadata :=
    { contentType := some type, cacheControl := some cacheControl, lastModified := lastModified }
  let fp := getUniqueFilename st
  let filename := fp.1
  let st1 := fp.2
  let meta : BlobMetadata :=
    { lastModified := lastModified, type := type, size := size, name := name }
  if size ≤ hashLimit then
    let hash := getSha256 content
    match getData st1.dataRows hash location with
    | some _ =>
      (Except.ok meta,
       { st1 with blobRows := createBlob st1.blobRows workspace name hash location })
    | none =>
      if o.putFails filename then (Except.error ("failed to upload file"), st1)
      else
        let st2 := putObject st1 location filename (mkObj content httpMetadata)
        (Except.ok meta,
         { st2 with
             dataRows := createData st2.dataRows
               { hash := hash, location := location, filename := filename,
                 type := type, size := size },
             blobRows := createBlob st2.blobRows workspace name hash location })
  else
    if o.putFails filename then (Except.error ("failed to upload file"), st1)
    else
      let st2 := putObject st1 location filename (mkObj content httpMetadata)
      let hash := getSha256 content
      match getData st2.dataRows hash location with
      | some _ =>
        let st3 := { st2 with blobRows := createBlob st2.blobRows workspace name hash location }
        let del := bucketDelete o st3 location filename
        if del.1 then (Except.ok meta, del.2)
        else (Except.error ("failed to delete file"), del.2)
      | none =>
        (Except.ok meta,
         { st2 with
             dataRows := createData st2.dataRows
               { hash := hash, location := location, filename := filename,
                 type := type, size := size },
             blobRows := createBlob st2.blobRows workspace name hash location })

/-- handleBlobUploaded of blob.ts (the Reconciler): head the out-of-band object
(throwing when it or its metadata is missing); take the md5 checksum as the hash
when the bucket provides one and otherwise a freshly generated random UUID; on an
existing data row upsert the blob row and delete the redundant object (a delete
failure propagates as it is awaited), otherwise commit the data insert plus blob
upsert together, with type and size read from the head metadata. -/
def handleBlobUploaded (o : Oracle) (st : State) (workspace name : String)
    (filename : UUID) : (Except String Unit) × State :=
  let location := selectStorage workspace
  match getObject st.objects location filename with
  | none => (Except.error ("blob not found"), st)
  | some obj =>
    match obj.httpMetadata with
    | none => (Except.error ("blob not found"), st)
    | some hm =>
      let hp :=
        match obj.md5 with
        | some digest => (digestToUUID digest, st)
        | none => randomUUID st
      let hash := hp.1
      let st1 := hp.2
      match getData st1.dataRows hash location with
      | some _ =>
        let st2 := { st1 with blobRows := createBlob st1.blobRows workspace name hash location }
        let del := bucketDelete o st2 location filename
        if del.1 then (Except.ok (), del.2)
        else (Except.error ("failed to delete file"), del.2)
      | none =>
        let size := obj.content.length
        let type := hm.contentType.getD ("application/octet-stream")
        (Except.ok (),
         { st1 with
             dataRows := createData st1.dataRows
               { hash := hash, location := location, filename := filename,
                 type := type, size := size },
             blobRows := createBlob st1.blobRows workspace name hash location })

/-- Modelled from the spec: copyVideo triggers an asynchronous copy of a streaming
media blob into the media-processing collaborator; a failure of that step must not
fail the ingestion response, so the attempt and its outcome are only recorded
(video.ts is not under src). -/
def copyVideo (o : Oracle) (st : State) (workspace name : String) : State :=
  { st with copies := (workspace, name, !(o.copyVideoFails name)) :: st.copies }

/-- Character-list version of the platform startsWith check. -/
def listStartsWith : List Char → List Char → Bool
  | _, [] => true
  | [], _ :: _ => false
  | c :: cs, p :: ps => c == p && listStartsWith cs ps

/-- The platform String.startsWith, embedded structurally over the character data. -/
def strStartsWith (s pre : String) : Bool :=
  listStartsWith s.data pre.data

/-- One file part of handleUploadFormData: save the blob, then for streaming media
content types trigger the video copy; a thrown save is caught and reported as the
per-part error tag. -/
def processFile (o : Oracle) (workspace : String) (st : State) (f : FormFile) :
    (String × Except String BlobMetadata) × State :=
  let r := saveBlob o st f.content f.size f.type workspace f.name f.lastModified
  match r.1 with
  | Except.error e => ((f.key, Except.error e), r.2)
  | Except.ok m =>
    let st2 := if strStartsWith f.type ("video/") then copyVideo o r.2 workspace f.name else r.2
    ((f.key, Except.ok m), st2)

/-- The batch loop of handleUploadFormData: every file part is processed and yields
exactly one outcome entry, in order. -/
def processFiles (o : Oracle) (workspace : String) :
    State → List FormFile → List (String × Except String BlobMetadata) × State
  | st, [] => ([], st)
  | st, f :: fs =>
    let e := processFile o workspace st f
    let rest := processFiles o workspace e.2 fs
    (e.1 :: rest.1, rest.2)

/-- handleUploadFormData of blob.ts, from the point where the file parts have been
extracted from the form data: the per-part outcome list of the batch. -/
def handleUploadFormData (o : Oracle) (workspace : String) (st : State)
    (files : List FormFile) : List (String × Except String BlobMetadata) × State :=
  processFiles o workspace st files

/-- One segment of a route pattern: a literal or a named parameter. -/
inductive PathSeg where
  | lit (s : String)
  | param
deriving Repr, DecidableEq

/-- A route pattern: a segment list, or the catch-all star. -/
inductive Pat where
  | segs (l : List PathSeg)
  | star
deriving Repr, DecidableEq

/-- The handler a route of the worker entry file dispatches to. -/
inductive RouteTarget where
  | blobGet
  | blobHead
  | blobDelete
  | imageGet
  | videoMeta
  | uploadFormData
  | signCreate
  | signComplete
  | signAbort
  | multipartStart
  | multipartPart
  | multipartComplete
  | multipartAbort
  | s3Blob
  | home
  | notFound
deriving Repr, DecidableEq

/-- A registered route: HTTP method (ALL matches any), pattern, handler. -/
structure Route where
  method : String
  pattern : Pat
  target : RouteTarget
deriving Repr, DecidableEq

/-- The route table of the worker entry file, in registration order. -/
def routes : List Route :=
  [{ method := "GET", pattern := Pat.segs [PathSeg.lit ("blob"), PathSeg.param, PathSeg.param],
     target := RouteTarget.blobGet },
   { method := "HEAD", pattern := Pat.segs [PathSeg.lit ("blob"), PathSeg.param, PathSeg.param],
     target := RouteTarget.blobHead },
   { method := "DELETE", pattern := Pat.segs [PathSeg.lit ("blob"), PathSeg.param, PathSeg.param],
     target := RouteTarget.blobDelete },
   { method := "GET",
     pattern := Pat.segs [PathSeg.lit ("image"), PathSeg.param, PathSeg.param, PathSeg.param],
     target := RouteTarget.imageGet },
   { method := "GET",
     pattern := Pat.segs [PathSeg.lit ("video"), PathSeg.param, PathSeg.param, PathSeg.lit ("meta")],
     target := RouteTarget.videoMeta },
   { method := "POST",
     pattern := Pat.segs [PathSeg.lit ("upload"), PathSeg.lit ("form-data"), PathSeg.param],
     target := RouteTarget.uploadFormData },
   { method := "POST",
     pattern := Pat.segs [PathSeg.lit ("upload"), PathSeg.lit ("signed-url"), PathSeg.param, PathSeg.param],
     target := RouteTarget.signCreate },
   { method := "PUT",
     pattern := Pat.segs [PathSeg.lit ("upload"), PathSeg.lit ("signed-url"), PathSeg.param, PathSeg.param],
     target := RouteTarget.signComplete },
   { method := "DELETE",
     pattern := Pat.segs [PathSeg.lit ("upload"), PathSeg.lit ("signed-url"), PathSeg.param, PathSeg.param],
     target := RouteTarget.signAbort },
   { method := "POST",
     pattern := Pat.segs [PathSeg.lit ("upload"), PathSeg.lit ("multipart"), PathSeg.param, PathSeg.param],
     target := RouteTarget.multipartStart },
   { method := "POST",
     pattern := Pat.segs [PathSeg.lit ("upload"), PathSeg.lit ("multipart"), PathSeg.param, PathSeg.param, PathSeg.lit ("part")],
     target := RouteTarget.multipartPart },
   { method := "POST",
     pattern := Pat.segs [PathSeg.lit ("upload"), PathSeg.lit ("multipart"), PathSeg.param, PathSeg.param, PathSeg.lit ("complete")],
     target := RouteTarget.multipartComplete },
   { method := "POST",
     pattern := Pat.segs [PathSeg.lit ("upload"), PathSeg.lit ("multipart"), PathSeg.param, PathSeg.param, PathSeg.lit ("abort")],
     target := RouteTarget.multipartAbort },
   { method := "POST",
     pattern := Pat.segs [PathSeg.lit ("upload"), PathSeg.lit ("s3"), PathSeg.param, PathSeg.param],
     target := RouteTarget.s3Blob },
   { method := "ALL", pattern := Pat.segs [], target := RouteTarget.home },
   { method := "ALL", pattern := Pat.star, target := RouteTarget.notFound }]

/-- Whether a pattern segment accepts a path segment: a literal by equality, a
parameter by any non-empty segment. -/
def segAccepts : PathSeg → String → Bool
  | PathSeg.lit s, seg => s == seg
  | PathSeg.param, seg => !(seg == "")

/-- Segment-wise pattern match. -/
def segsMatch : List PathSeg → List String → Bool
  | [], [] => true
  | p :: ps, s :: ss => segAccepts p s && segsMatch ps ss
  | _, _ => false

/-- Pattern match: the star accepts every path. -/
def patMatch : Pat → List String → Bool
  | Pat.star, _ => true
  | Pat.segs ps, segs => segsMatch ps segs

/-- Whether a route accepts a request method and path. -/
def routeMatches (method : String) (segs : List String) (r : Route) : Bool :=
  (r.method == method || r.method == ("ALL")) && patMatch r.pattern segs

/-- Router dispatch: the first route in registration order accepting the request,
by method and path, decides the handler. -/
def dispatch (method : String) (segs : List String) : RouteTarget :=
  match routes.find? (routeMatches method segs) with
  | some r => r.target
  | none => RouteTarget.notFound

/-- DatalakeWorker.getBlob of the worker entry file builds a Request for the blob
URL with no init, so the dispatched method is the platform default GET; the request
is handed to the same router as external traffic. -/
def getBlobDispatch (workspace name : String) : RouteTarget :=
  dispatch ("GET") [("blob"), workspace, name]

/-- DatalakeWorker.putBlob of the worker entry file builds a Request for the upload
URL with no init, so the request method is the platform default GET; the object
holding method POST and the form body is passed as the second argument of
router.fetch, which the router forwards to handlers as an extra argument instead of
applying it to the request. The dispatched method is therefore GET. -/
def putBlobDispatch (workspace : String) : RouteTarget :=
  dispatch ("GET") [("upload"), ("form-data"), workspace]

/-- DatalakeWorker.putBlob throws whenever the routed response is not ok; only the
form-data upload handler can store the blob and answer ok for this URL. -/
def putBlob (workspace : String) : Except String Unit :=
  match putBlobDispatch workspace with
  | RouteTarget.uploadFormData => Except.ok ()
  | _ => Except.error ("Failed to fetch blob: Not Found")

/-- Searching a filtered list finds the same element when the search predicate
implies the kept predicate. -/
theorem find?_filter_of_imp {α : Type} (p q : α → Bool)
    (himp : ∀ a, p a = true → q a = true) :
    ∀ l : List α, List.find? p (l.filter q) = List.find? p l := by
  intro l
  induction l with
  | nil => rfl
  | cons a t ih =>
    by_cases hq : q a = true
    · rw [List.filter_cons, if_pos hq]
      by_cases hpa : p a = true
      · rw [List.find?_cons_of_pos _ hpa, List.find?_cons_of_pos _ hpa]
      · rw [List.find?_cons_of_neg _ hpa, List.find?_cons_of_neg _ hpa]
        exact ih
    · have hpa : ¬p a = true := fun hp => hq (himp a hp)
      rw [List.filter_cons, if_neg hq, List.find?_cons_of_neg _ hpa]
      exact ih

/-- Searching a mapped list commutes with the map when the map preserves the search
predicate. -/
theorem find?_map_of_pred_comm {α : Type} (g : α → α) (p : α → Bool)
    (hg : ∀ a, p (g a) = p a) :
    ∀ l : List α, List.find? p (l.map g) = (List.find? p l).map g := by
  intro l
  induction l with
  | nil => rfl
  | cons a t ih =>
    by_cases hpa : p a = true
    · rw [List.map_cons, List.find?_cons_of_pos _ (by rw [hg]; exact hpa),
          List.find?_cons_of_pos _ hpa]
      rfl
    · rw [List.map_cons, List.find?_cons_of_neg _ (by rw [hg]; exact hpa),
          List.find?_cons_of_neg _ hpa]
      exact ih

/-- When no data row is stored for a key, the lookup finds none. -/
theorem getData_eq_none_of_countData_zero (hash : UUID) (location : String) :
    ∀ rows : List DataRow, countData rows hash location = 0 →
      getData rows hash location = none := by
  intro rows
  induction rows with
  | nil => intro _; rfl
  | cons r rs ih =>
    intro hc
    by_cases hp : (r.hash == hash && r.location == location) = true
    · exfalso
      simp only [countData, List.filter_cons, hp, if_true, List.length_cons] at hc
      exact Nat.succ_ne_zero _ hc
    · have hc2 : countData rs hash location = 0 := by
        simpa only [countData, List.filter_cons, hp, if_false, Bool.false_eq_true] using hc
      have hrec := ih hc2
      unfold getData at hrec ⊢
      rw [List.find?_cons_of_neg]
      · exact hrec
      · exact hp

/-- A data row matching the key at the head of the store is what the lookup finds. -/
theorem getData_cons_self (hash : UUID) (location : String) (r : DataRow)
    (rows : List DataRow) (hh : r.hash = hash) (hl : r.location = location) :
    getData (r :: rows) hash location = some r := by
  unfold getData
  rw [List.find?_cons_of_pos]
  simp [hh, hl]

/-- Consing a data row matching the key bumps the count for that key by one. -/
theorem countData_cons_self (hash : UUID) (location : String) (r : DataRow)
    (rows : List DataRow) (hh : r.hash = hash) (hl : r.location = location) :
    countData (r :: rows) hash location = countData rows hash location + 1 := by
  simp [countData, List.filter_cons, hh, hl]

/-- The blob upsert makes (workspace, name) resolve to the fresh live pointer. -/
theorem getBlobRow_createBlob_self (rows : List BlobRow) (ws n : String) (h : UUID)
    (l : String) :
    getBlobRow (createBlob rows ws n h l) ws n =
      some { workspace := ws, name := n, hash := h, location := l, deleted := false } := by
  unfold getBlobRow createBlob
  rw [List.find?_cons_of_pos]
  simp

/-- The blob upsert leaves the resolution of every other key unchanged. -/
theorem getBlobRow_createBlob_other (rows : List BlobRow) (ws n : String) (h : UUID)
    (l : String) (ws2 n2 : String) (hne : ¬(ws2 = ws ∧ n2 = n)) :
    getBlobRow (createBlob rows ws n h l) ws2 n2 = getBlobRow rows ws2 n2 := by
  unfold getBlobRow createBlob
  rw [List.find?_cons_of_neg]
  · exact find?_filter_of_imp _ _
      (by
        intro a hp
        simp only [Bool.and_eq_true, beq_iff_eq] at hp
        simp only [Bool.not_eq_true', Bool.and_eq_false_iff]
        by_cases hw : a.workspace = ws
        · by_cases hn2 : a.name = n
          · exact absurd ⟨hp.1 ▸ hw, hp.2 ▸ hn2⟩ hne
          · exact Or.inr (by simpa using hn2)
        · exact Or.inl (by simpa using hw)) rows
  · simp only [Bool.and_eq_true, beq_iff_eq, not_and]
    intro hw hn2
    exact absurd ⟨hw.symm, hn2.symm⟩ hne

/-- The soft delete turns the resolution of (workspace, name) into the same row with
the deleted flag set. -/
theorem getBlobRow_deleteBlob_self (rows : List BlobRow) (ws n : String) :
    getBlobRow (deleteBlob rows ws n) ws n =
      (getBlobRow rows ws n).map (fun b => { b with deleted := true }) := by
  unfold getBlobRow deleteBlob
  rw [find?_map_of_pred_comm _ _
    (by
      intro a
      by_cases hq : (a.workspace == ws && a.name == n) = true
      · simp [hq]
      · simp [hq]) rows]
  cases hf : List.find? (fun r => r.workspace == ws && r.name == n) rows with
  | none => rfl
  | some b =>
    have hb := List.find?_some hf
    simp only [Bool.and_eq_true, beq_iff_eq] at hb
    simp [hb.1, hb.2]

/-- The soft delete of one key leaves the resolution of every other key unchanged. -/
theorem getBlobRow_deleteBlob_other (rows : List BlobRow) (ws n ws2 n2 : String)
    (hne : ¬(ws2 = ws ∧ n2 = n)) :
    getBlobRow (deleteBlob rows ws n) ws2 n2 = getBlobRow rows ws2 n2 := by
  unfold getBlobRow deleteBlob
  rw [find?_map_of_pred_comm _ _
    (by
      intro a
      by_cases hq : (a.workspace == ws && a.name == n) = true
      · simp [hq]
      · simp [hq]) rows]
  cases hf : List.find? (fun r => r.workspace == ws2 && r.name == n2) rows with
  | none => rfl
  | some b =>
    have hb := List.find?_some hf
    simp only [Bool.and_eq_true, beq_iff_eq] at hb
    have hq : (b.workspace == ws && b.name == n) = false := by
      simp only [Bool.and_eq_false_iff, Bool.not_eq_true', beq_eq_false_iff_ne]
      by_cases hw : b.workspace = ws
      · by_cases hn2 : b.name = n
        · exact absurd ⟨hb.1 ▸ hw, hb.2 ▸ hn2⟩ hne
        · exact Or.inr hn2
      · exact Or.inl hw
    simp [hq]
    intro hw hn2
    exact absurd ⟨hb.1.symm.trans hw, hb.2.symm.trans hn2⟩ hne

/-- The metadata record saveBlob returns on every path. -/
def metaOf (size : Nat) (type name : String) (lastModified : Nat) : BlobMetadata :=
  { lastModified := lastModified, type := type, size := size, name := name }

/-- The state saveBlob commits on a fresh upload: object stored under the generated
filename, data row inserted and blob row upserted together. -/
def freshState (st : State) (content : Bytes) (size : Nat) (type ws n : String)
    (lm : Nat) : State :=
  let location := selectStorage ws
  let hash := getSha256 content
  let st2 := putObject { st with rng := st.rng + 1 } location st.rng
    (mkObj content { contentType := some type, cacheControl := some cacheControl, lastModified := lm })
  { st2 with
      dataRows := createData st2.dataRows
        { hash := hash, location := location, filename := st.rng, type := type, size := size },
      blobRows := createBlob st2.blobRows ws n hash location }

/-- Small-path branch equation: with a data row already stored for the content hash,
saveBlob only upserts the blob row. -/
theorem saveBlob_small_dedup (o : Oracle) (st : State) (content : Bytes) (size : Nat)
    (type ws n : String) (lm : Nat) (d : DataRow) (hsz : size ≤ hashLimit)
    (hgd : getData st.dataRows (getSha256 content) (selectStorage ws) = some d) :
    saveBlob o st content size type ws n lm =
      (Except.ok (metaOf size type n lm),
       { st with
           blobRows := createBlob st.blobRows ws n (getSha256 content) (selectStorage ws),
           rng := st.rng + 1 }) := by
  unfold saveBlob getUniqueFilename randomUUID metaOf
  rw [if_pos hsz]
  simp only [hgd]

/-- Small-path branch equation: with no data row stored for the content hash and a
successful put, saveBlob uploads and commits data insert plus blob upsert. -/
theorem saveBlob_small_fresh (o : Oracle) (st : State) (content : Bytes) (size : Nat)
    (type ws n : String) (lm : Nat) (hsz : size ≤ hashLimit)
    (hgd : getData st.dataRows (getSha256 content) (selectStorage ws) = none)
    (hput : o.putFails st.rng = false) :
    saveBlob o st content size type ws n lm =
      (Except.ok (metaOf size type n lm), freshState st content size type ws n lm) := by
  unfold saveBlob getUniqueFilename randomUUID metaOf freshState
  rw [if_pos hsz]
  simp only [hgd, hput, Bool.false_eq_true, if_false]

/-- Small-path branch equation: with no data row stored and a failing put, saveBlob
throws and leaves everything but the consumed random draw unchanged. -/
theorem saveBlob_small_putfail (o : Oracle) (st : State) (content : Bytes) (size : Nat)
    (type ws n : String) (lm : Nat) (hsz : size ≤ hashLimit)
    (hgd : getData st.dataRows (getSha256 content) (selectStorage ws) = none)
    (hput : o.putFails st.rng = true) :
    saveBlob o st content size type ws n lm =
      (Except.error ("failed to upload file"), { st with rng := st.rng + 1 }) := by
  unfold saveBlob getUniqueFilename randomUUID
  rw [if_pos hsz]
  simp only [hgd, hput, if_true]

/-- Large-path branch equation: a failing put throws before any metadata change. -/
theorem saveBlob_large_putfail (o : Oracle) (st : State) (content : Bytes) (size : Nat)
    (type ws n : String) (lm : Nat) (hsz : ¬size ≤ hashLimit)
    (hput : o.putFails st.rng = true) :
    saveBlob o st content size type ws n lm =
      (Except.error ("failed to upload file"), { st with rng := st.rng + 1 }) := by
  unfold saveBlob getUniqueFilename randomUUID
  rw [if_neg hsz]
  simp only [hput, if_true]

/-- Large-path branch equation: with no data row stored for the digest, saveBlob
keeps the uploaded object and commits data insert plus blob upsert. -/
theorem saveBlob_large_fresh (o : Oracle) (st : State) (content : Bytes) (size : Nat)
    (type ws n : String) (lm : Nat) (hsz : ¬size ≤ hashLimit)
    (hgd : getData st.dataRows (getSha256 content) (selectStorage ws) = none)
    (hput : o.putFails st.rng = false) :
    saveBlob o st content size type ws n lm =
      (Except.ok (metaOf size type n lm), freshState st content size type ws n lm) := by
  unfold saveBlob getUniqueFilename randomUUID metaOf freshState putObject
  rw [if_neg hsz]
  simp only [hgd, hput, Bool.false_eq_true, if_false]

/-- Filtering twice with the same predicate filters once. -/
theorem filter_idem {α : Type} (p : α → Bool) :
    ∀ l : List α, List.filter p (List.filter p l) = List.filter p l := by
  intro l
  induction l with
  | nil => rfl
  | cons a t ih =>
    by_cases hpa : p a = true
    · rw [List.filter_cons, if_pos hpa, List.filter_cons, if_pos hpa, ih]
    · rw [List.filter_cons, if_neg hpa, ih]

/-- Large-path branch equation, lost dedup race, cleanup delete succeeds: the blob
row is upserted, the redundant object is removed again, the delete attempt is
recorded, and the call succeeds. -/
theorem saveBlob_large_dedup_delok (o : Oracle) (st : State) (content : Bytes)
    (size : Nat) (type ws n : String) (lm : Nat) (d : DataRow) (hsz : ¬size ≤ hashLimit)
    (hgd : getData st.dataRows (getSha256 content) (selectStorage ws) = some d)
    (hput : o.putFails st.rng = false) (hdel : o.deleteFails st.rng = false) :
    saveBlob o st content size type ws n lm =
      (Except.ok (metaOf size type n lm),
       { st with
           blobRows := createBlob st.blobRows ws n (getSha256 content) (selectStorage ws),
           objects := st.objects.filter
             (fun e => !(e.1.1 == selectStorage ws && e.1.2 == st.rng)),
           deletes := (selectStorage ws, st.rng) :: st.deletes,
           rng := st.rng + 1 }) := by
  unfold saveBlob getUniqueFilename randomUUID metaOf putObject bucketDelete
  rw [if_neg hsz]
  simp only [hgd, hput, hdel, Bool.false_eq_true, if_false, if_true]
  rw [List.filter_cons]
  simp only [beq_self_eq_true, Bool.and_self, Bool.not_true, Bool.false_eq_true, if_false]
  rw [filter_idem]

/-- Large-path branch equation, lost dedup race, cleanup delete fails: the blob row
upsert has happened, the delete attempt is recorded, and the call throws, failing
the caller. -/
theorem saveBlob_large_dedup_delfail (o : Oracle) (st : State) (content : Bytes)
    (size : Nat) (type ws n : String) (lm : Nat) (d : DataRow) (hsz : ¬size ≤ hashLimit)
    (hgd : getData st.dataRows (getSha256 content) (selectStorage ws) = some d)
    (hput : o.putFails st.rng = false) (hdel : o.deleteFails st.rng = true) :
    saveBlob o st content size type ws n lm =
      (Except.error ("failed to delete file"),
       { st with
           blobRows := createBlob st.blobRows ws n (getSha256 content) (selectStorage ws),
           objects := ((selectStorage ws, st.rng),
               mkObj content { contentType := some type, cacheControl := some cacheControl,
                               lastModified := lm }) ::
             st.objects.filter (fun e => !(e.1.1 == selectStorage ws && e.1.2 == st.rng)),
           deletes := (selectStorage ws, st.rng) :: st.deletes,
           rng := st.rng + 1 }) := by
  unfold saveBlob getUniqueFilename randomUUID putObject bucketDelete
  rw [if_neg hsz]
  simp only [hgd, hput, hdel, Bool.false_eq_true, if_false, if_true]

/-- Field view of the fresh-upload commit: the data row for the content hash is
inserted at the head and the blob row is upserted. -/
theorem freshState_fields (st : State) (content : Bytes) (size : Nat)
    (type ws n : String) (lm : Nat)
    (hgd : getData st.dataRows (getSha256 content) (selectStorage ws) = none) :
    (freshState st content size type ws n lm).dataRows =
      { hash := getSha256 content, location := selectStorage ws, filename := st.rng,
        type := type, size := size } :: st.dataRows ∧
    (freshState st content size type ws n lm).blobRows =
      createBlob st.blobRows ws n (getSha256 content) (selectStorage ws) ∧
    (freshState st content size type ws n lm).copies = st.copies := by
  unfold freshState putObject createData
  simp only [hgd]
  exact ⟨trivial, trivial, trivial⟩

/-- Inversion of a successful saveBlob when no data row was stored for the content
hash: the result is the standard metadata and the fresh-upload commit. -/
theorem saveBlob_ok_fresh (o : Oracle) (st : State) (content : Bytes) (size : Nat)
    (type ws n : String) (lm : Nat) (m : BlobMetadata) (st2 : State)
    (hgd : getData st.dataRows (getSha256 content) (selectStorage ws) = none)
    (h : saveBlob o st content size type ws n lm = (Except.ok m, st2)) :
    m = metaOf size type n lm ∧ st2 = freshState st content size type ws n lm := by
  by_cases hsz : size ≤ hashLimit
  · by_cases hput : o.putFails st.rng = true
    · rw [saveBlob_small_putfail o st content size type ws n lm hsz hgd hput] at h
      simp at h
    · have hput2 : o.putFails st.rng = false := Bool.not_eq_true _ ▸ hput
      rw [saveBlob_small_fresh o st content size type ws n lm hsz hgd hput2] at h
      simp only [Prod.mk.injEq, Except.ok.injEq] at h
      exact ⟨h.1.symm, h.2.symm⟩
  · by_cases hput : o.putFails st.rng = true
    · rw [saveBlob_large_putfail o st content size type ws n lm hsz hput] at h
      simp at h
    · have hput2 : o.putFails st.rng = false := Bool.not_eq_true _ ▸ hput
      rw [saveBlob_large_fresh o st content size type ws n lm hsz hgd hput2] at h
      simp only [Prod.mk.injEq, Except.ok.injEq] at h
      exact ⟨h.1.symm, h.2.symm⟩

/-- Inversion of a successful saveBlob when a data row was already stored for the
content hash: no data row is touched and the blob row is upserted. -/
theorem saveBlob_ok_dedup (o : Oracle) (st : State) (content : Bytes) (size : Nat)
    (type ws n : String) (lm : Nat) (m : BlobMetadata) (st2 : State) (d : DataRow)
    (hgd : getData st.dataRows (getSha256 content) (selectStorage ws) = some d)
    (h : saveBlob o st content size type ws n lm = (Except.ok m, st2)) :
    m = metaOf size type n lm ∧ st2.dataRows = st.dataRows ∧
    st2.blobRows = createBlob st.blobRows ws n (getSha256 content) (selectStorage ws) := by
  by_cases hsz : size ≤ hashLimit
  · rw [saveBlob_small_dedup o st content size type ws n lm d hsz hgd] at h
    simp only [Prod.mk.injEq, Except.ok.injEq] at h
    refine ⟨h.1.symm, ?_, ?_⟩
    · rw [← h.2]
    · rw [← h.2]
  · by_cases hput : o.putFails st.rng = true
    · rw [saveBlob_large_putfail o st content size type ws n lm hsz hput] at h
      simp at h
    · have hput2 : o.putFails st.rng = false := Bool.not_eq_true _ ▸ hput
      by_cases hdel : o.deleteFails st.rng = true
      · rw [saveBlob_large_dedup_delfail o st content size type ws n lm d hsz hgd hput2 hdel] at h
        simp at h
      · have hdel2 : o.deleteFails st.rng = false := Bool.not_eq_true _ ▸ hdel
        rw [saveBlob_large_dedup_delok o st content size type ws n lm d hsz hgd hput2 hdel2] at h
        simp only [Prod.mk.injEq, Except.ok.injEq] at h
        refine ⟨h.1.symm, ?_, ?_⟩
        · rw [← h.2]
        · rw [← h.2]

/-- A successful saveBlob always upserts the blob row for (workspace, name) at the
content hash and the selected shard. -/
theorem saveBlob_ok_blobRows (o : Oracle) (st : State) (content : Bytes) (size : Nat)
    (type ws n : String) (lm : Nat) (m : BlobMetadata) (st2 : State)
    (h : saveBlob o st content size type ws n lm = (Except.ok m, st2)) :
    st2.blobRows = createBlob st.blobRows ws n (getSha256 content) (selectStorage ws) := by
  cases hgd : getData st.dataRows (getSha256 content) (selectStorage ws) with
  | none =>
    have hf := saveBlob_ok_fresh o st content size type ws n lm m st2 hgd h
    rw [hf.2]
    exact (freshState_fields st content size type ws n lm hgd).2.1
  | some d =>
    exact (saveBlob_ok_dedup o st content size type ws n lm m st2 d hgd h).2.2

/-- Whatever path saveBlob takes, its final blob rows are either untouched or one
upsert of (workspace, name). -/
theorem saveBlob_blobRows_cases (o : Oracle) (st : State) (content : Bytes)
    (size : Nat) (type ws n : String) (lm : Nat) :
    (saveBlob o st content size type ws n lm).2.blobRows = st.blobRows ∨
    (saveBlob o st content size type ws n lm).2.blobRows =
      createBlob st.blobRows ws n (getSha256 content) (selectStorage ws) := by
  cases hgd : getData st.dataRows (getSha256 content) (selectStorage ws) with
  | none =>
    by_cases hsz : size ≤ hashLimit
    · by_cases hput : o.putFails st.rng = true
      · rw [saveBlob_small_putfail o st content size type ws n lm hsz hgd hput]
        exact Or.inl rfl
      · rw [saveBlob_small_fresh o st content size type ws n lm hsz hgd
          (Bool.not_eq_true _ ▸ hput)]
        exact Or.inr (freshState_fields st content size type ws n lm hgd).2.1
    · by_cases hput : o.putFails st.rng = true
      · rw [saveBlob_large_putfail o st content size type ws n lm hsz hput]
        exact Or.inl rfl
      · rw [saveBlob_large_fresh o st content size type ws n lm hsz hgd
          (Bool.not_eq_true _ ▸ hput)]
        exact Or.inr (freshState_fields st content size type ws n lm hgd).2.1
  | some d =>
    by_cases hsz : size ≤ hashLimit
    · rw [saveBlob_small_dedup o st content size type ws n lm d hsz hgd]
      exact Or.inr rfl
    · by_cases hput : o.putFails st.rng = true
      · rw [saveBlob_large_putfail o st content size type ws n lm hsz hput]
        exact Or.inl rfl
      · by_cases hdel : o.deleteFails st.rng = true
        · rw [saveBlob_large_dedup_delfail o st content size type ws n lm d hsz hgd
            (Bool.not_eq_true _ ▸ hput) hdel]
          exact Or.inr rfl
        · rw [saveBlob_large_dedup_delok o st content size type ws n lm d hsz hgd
            (Bool.not_eq_true _ ▸ hput) (Bool.not_eq_true _ ▸ hdel)]
          exact Or.inr rfl

/-- Processing one file part never touches blob rows beyond what its saveBlob did:
the optional video copy only appends to the copy trace. -/
theorem processFile_state_blobRows (o : Oracle) (ws : String) (st : State)
    (f : FormFile) :
    (processFile o ws st f).2.blobRows =
      (saveBlob o st f.content f.size f.type ws f.name f.lastModified).2.blobRows := by
  unfold processFile copyVideo
  cases hr : (saveBlob o st f.content f.size f.type ws f.name f.lastModified).1 with
  | error e => simp [hr]
  | ok m =>
    simp only [hr]
    by_cases hv : strStartsWith f.type ("video/") = true
    · simp [hv]
    · simp [hv]

/-- A blob key present before one file part is processed is still present after. -/
theorem processFile_preserves_blobKey (o : Oracle) (ws : String) (st : State)
    (f : FormFile) (ws2 nm : String)
    (h : (getBlobRow st.blobRows ws2 nm).isSome = true) :
    (getBlobRow (processFile o ws st f).2.blobRows ws2 nm).isSome = true := by
  rw [processFile_state_blobRows]
  cases saveBlob_blobRows_cases o st f.content f.size f.type ws f.name f.lastModified with
  | inl he =>
    rw [he]
    exact h
  | inr he =>
    rw [he]
    by_cases hk : ws2 = ws ∧ nm = f.name
    · rw [hk.1, hk.2, getBlobRow_createBlob_self]
      rfl
    · rw [getBlobRow_createBlob_other _ _ _ _ _ _ _ hk]
      exact h

/-- A blob key present before a batch is processed is still present after. -/
theorem processFiles_preserves_blobKey (o : Oracle) (ws : String) :
    ∀ (fs : List FormFile) (st : State) (ws2 nm : String),
      (getBlobRow st.blobRows ws2 nm).isSome = true →
      (getBlobRow (processFiles o ws st fs).2.blobRows ws2 nm).isSome = true := by
  intro fs
  induction fs with
  | nil => intro st ws2 nm h; exact h
  | cons g gs ih =>
    intro st ws2 nm h
    exact ih (processFile o ws st g).2 ws2 nm (processFile_preserves_blobKey o ws st g ws2 nm h)

/-- A file part whose outcome is a success has had its blob row upserted. -/
theorem processFile_ok_blobKey (o : Oracle) (ws : String) (st : State) (f : FormFile)
    (k : String) (m : BlobMetadata) (h : (processFile o ws st f).1 = (k, Except.ok m)) :
    (getBlobRow (processFile o ws st f).2.blobRows ws f.name).isSome = true := by
  rw [processFile_state_blobRows]
  have hr2 : saveBlob o st f.content f.size f.type ws f.name f.lastModified =
      ((saveBlob o st f.content f.size f.type ws f.name f.lastModified).1,
       (saveBlob o st f.content f.size f.type ws f.name f.lastModified).2) := rfl
  cases hr : (saveBlob o st f.content f.size f.type ws f.name f.lastModified).1 with
  | error e =>
    unfold processFile at h
    simp only [hr] at h
    simp at h
  | ok m2 =>
    have hb := saveBlob_ok_blobRows o st f.content f.size f.type ws f.name f.lastModified
      m2 (saveBlob o st f.content f.size f.type ws f.name f.lastModified).2
      (by rw [hr2, hr])
    rw [hb, getBlobRow_createBlob_self]
    rfl

/-- The batch yields one outcome per file part, in order. -/
theorem processFiles_length (o : Oracle) (ws : String) :
    ∀ (fs : List FormFile) (st : State),
      (processFiles o ws st fs).1.length = fs.length := by
  intro fs
  induction fs with
  | nil => intro st; rfl
  | cons g gs ih =>
    intro st
    simp only [processFiles, List.length_cons]
    rw [ih]

/-- The outcome at position i of the batch is exactly the outcome of processing file
i alone on the state left by the files before it. -/
theorem processFiles_get (o : Oracle) (ws : String) :
    ∀ (fs : List FormFile) (st : State) (i : Nat) (f : FormFile),
      fs.get? i = some f →
      (processFiles o ws st fs).1.get? i =
        some ((processFile o ws (processFiles o ws st (fs.take i)).2 f).1) := by
  intro fs
  induction fs with
  | nil =>
    intro st i f hf
    simp at hf
  | cons g gs ih =>
    intro st i f hf
    cases i with
    | zero =>
      have hgf : g = f := by simpa using hf
      subst hgf
      rfl
    | succ j =>
      have hf2 : gs.get? j = some f := by simpa using hf
      have hrec := ih (processFile o ws st g).2 j f hf2
      simpa [processFiles] using hrec

/-- A success outcome at position i means the blob row for that file name is present
in the final state of the batch. -/
theorem processFiles_ok_blobKey (o : Oracle) (ws : String) :
    ∀ (fs : List FormFile) (st : State) (i : Nat) (f : FormFile) (m : BlobMetadata),
      fs.get? i = some f →
      (processFiles o ws st fs).1.get? i = some (f.key, Except.ok m) →
      (getBlobRow (processFiles o ws st fs).2.blobRows ws f.name).isSome = true := by
  intro fs
  induction fs with
  | nil =>
    intro st i f m hf _
    simp at hf
  | cons g gs ih =>
    intro st i f m hf hentry
    cases i with
    | zero =>
      have hgf : g = f := by simpa using hf
      have he : (processFile o ws st g).1 = (g.key, Except.ok m) := by
        have h0 : (processFile o ws st g).1 = (f.key, Except.ok m) := by
          simpa [processFiles] using hentry
        rw [← hgf] at h0
        exact h0
      rw [← hgf]
      exact processFiles_preserves_blobKey o ws gs (processFile o ws st g).2 ws g.name
        (processFile_ok_blobKey o ws st g g.key m he)
    | succ j =>
      have hf2 : gs.get? j = some f := by simpa using hf
      have hentry2 : (processFiles o ws (processFile o ws st g).2 gs).1.get? j =
          some (f.key, Except.ok m) := by simpa [processFiles] using hentry
      exact ih (processFile o ws st g).2 j f m hf2 hentry2

/-- Oracle on which every external operation succeeds. -/
def oNone : Oracle :=
  { putFails := fun _ => false, deleteFails := fun _ => false,
    copyVideoFails := fun _ => false, dbThrows := false }

/-- The empty starting world. -/
def emptyState : State :=
  { dataRows := [], blobRows := [], objects := [], cache := [], copies := [],
    videoDeletes := [], deletes := [], rng := 0 }

/-- Plain text metadata used by the concrete scenarios. -/
def hmPlain : HttpMetadata :=
  { contentType := some ("text/plain"), cacheControl := none, lastModified := 0 }

/-- An out-of-band uploaded object whose bucket head reports no md5 checksum, as a
multipart-assembled object does. -/
def objC1 : R2Obj :=
  { content := [1, 2, 3], httpMetadata := some hmPlain, md5 := none, uploaded := 0,
    httpEtag := "e1" }

/-- World for the reconciliation scenario: the physical object sits in the bucket
under filename 5 with no checksum, and the random generator will next yield 42. -/
def stC1 : State :=
  { emptyState with objects := [(("w", 5), objC1)], rng := 42 }

/-- Claim C1: the spec requires reconciliation of an out-of-band upload to fail when
the bucket head provides no checksum, and never to record a Data row keyed by a
randomly generated identifier. The code does the opposite: on this input, whose head
has no md5 checksum, handleBlobUploaded succeeds and records a Data row keyed by 42,
which is exactly the next random draw (stC1.rng) and is unrelated to the object
content [1, 2, 3]. -/
theorem c1_reconcile_records_random_identity :
    (handleBlobUploaded oNone stC1 ("w") ("n") 5).1 = Except.ok () ∧
    (handleBlobUploaded oNone stC1 ("w") ("n") 5).2.dataRows =
      [{ hash := 42, location := "w", filename := 5, type := "text/plain", size := 3 }] ∧
    stC1.rng = 42 ∧ (objC1.md5 = none) := by
  exact ⟨rfl, rfl, rfl, rfl⟩

/-- A 1000-byte object stored under filename 3. -/
def objC3 : R2Obj :=
  { content := List.replicate 1000 7, httpMetadata := some hmPlain, md5 := none,
    uploaded := 0, httpEtag := "e3" }

/-- World for the range scenario: name n resolves to the 1000-byte object. -/
def stC3 : State :=
  { emptyState with
      dataRows := [{ hash := 99, location := "w", filename := 3, type := "text/plain",
                     size := 1000 }],
      blobRows := [{ workspace := "w", name := "n", hash := 99, location := "w",
                     deleted := false }],
      objects := [(("w", 3), objC3)] }

/-- The range request bytes equals 0 through 99, resolved to offset 0 and length 100. -/
def reqC3 : BlobReq :=
  { workspace := "w", name := "n", range := some (0, 100) }

set_option maxRecDepth 40000 in
/-- Claim C3: on a bytes 0-99 request against a 1000-byte object the code answers
206 with a correct Content-Range and serves 100 body bytes, but the Content-Length
header reads 1000 (the full object size from r2MetadataHeaders), not the 100 bytes
actually served that the claim requires. -/
theorem c3_ranged_response_content_length :
    (handleBlobGet stC3 reqC3).1.status = 206 ∧
    headerValue (handleBlobGet stC3 reqC3).1.headers ("Content-Length") = some ("1000") ∧
    headerValue (handleBlobGet stC3 reqC3).1.headers ("Content-Range") =
      some ("bytes 0-99/1000") ∧
    Option.map List.length (handleBlobGet stC3 reqC3).1.body = some 100 := by
  exact ⟨rfl, rfl, rfl, rfl⟩

/-- Claim C9: the internal putBlob dispatches method GET for the upload URL, because
its Request is built without an init and the init object is instead passed to the
router as an extra argument; the only route accepting that request is the catch-all
404, so putBlob always throws and stores nothing, while an external POST of the same
URL reaches the form-data upload handler. The internal getBlob URL does dispatch to
the same handler as an external blob GET. -/
theorem c9_putBlob_never_reaches_upload_route :
    putBlobDispatch ("ws1") = RouteTarget.notFound ∧
    putBlob ("ws1") = Except.error ("Failed to fetch blob: Not Found") ∧
    dispatch ("POST") [("upload"), ("form-data"), ("ws1")] = RouteTarget.uploadFormData ∧
    getBlobDispatch ("ws1") ("a.txt") = RouteTarget.blobGet := by
  exact ⟨rfl, rfl, rfl, rfl⟩

/-- Claim C10: whenever the metadata-store round trip of the delete handler does not
throw, handleBlobDelete answers 204 with an empty body and only marks the blob row
soft-deleted and records the derived-media deletion trigger; no existence check on
the name happens, so deleting an unknown name is not reported as not-found. -/
theorem c10_delete_succeeds_without_existence_check (o : Oracle) (st : State)
    (req : BlobReq) (hdb : o.dbThrows = false) :
    handleBlobDelete o st req =
      ({ status := 204, headers := [], body := none },
       { st with blobRows := deleteBlob st.blobRows req.workspace req.name,
                 videoDeletes := (req.workspace, req.name) :: st.videoDeletes }) := by
  unfold handleBlobDelete deleteVideo
  rw [hdb]
  simp

/-- Witness for claim C10 at a world that stores no blob row at all for the deleted
name: the delete still answers 204. -/
theorem c10_witness :
    handleBlobDelete oNone emptyState { workspace := "w", name := "gone", range := none } =
      ({ status := 204, headers := [], body := none },
       { emptyState with videoDeletes := [("w", "gone")] }) := by
  exact c10_delete_succeeds_without_existence_check oNone emptyState
    { workspace := "w", name := "gone", range := none } rfl

/-- Claim C2: two successful saveBlob ingestions of byte-identical content under two
different names in one tenant, starting from a world with no data row for that
content, leave exactly one data row for (hash, location), the second ingestion adds
no data row, and both names resolve to live blob rows pointing at that same
(hash, location). -/
theorem c2_identical_content_single_data_row
    (o1 o2 : Oracle) (st : State) (content : Bytes) (size : Nat) (type ws n1 n2 : String)
    (lm1 lm2 : Nat) (m1 m2 : BlobMetadata) (st1 st2 : State)
    (hn : ¬n1 = n2)
    (h0 : countData st.dataRows (getSha256 content) (selectStorage ws) = 0)
    (h1 : saveBlob o1 st content size type ws n1 lm1 = (Except.ok m1, st1))
    (h2 : saveBlob o2 st1 content size type ws n2 lm2 = (Except.ok m2, st2)) :
    countData st2.dataRows (getSha256 content) (selectStorage ws) = 1 ∧
    st2.dataRows = st1.dataRows ∧
    getBlobRow st2.blobRows ws n1 =
      some { workspace := ws, name := n1, hash := getSha256 content,
             location := selectStorage ws, deleted := false } ∧
    getBlobRow st2.blobRows ws n2 =
      some { workspace := ws, name := n2, hash := getSha256 content,
             location := selectStorage ws, deleted := false } := by
  have hnone := getData_eq_none_of_countData_zero (getSha256 content) (selectStorage ws)
    st.dataRows h0
  have hf := saveBlob_ok_fresh o1 st content size type ws n1 lm1 m1 st1 hnone h1
  have hfields := freshState_fields st content size type ws n1 lm1 hnone
  have hdr1 : st1.dataRows =
      { hash := getSha256 content, location := selectStorage ws, filename := st.rng,
        type := type, size := size } :: st.dataRows := by
    rw [hf.2]
    exact hfields.1
  have hbr1 : st1.blobRows =
      createBlob st.blobRows ws n1 (getSha256 content) (selectStorage ws) := by
    rw [hf.2]
    exact hfields.2.1
  have hsome : getData st1.dataRows (getSha256 content) (selectStorage ws) =
      some { hash := getSha256 content, location := selectStorage ws, filename := st.rng,
             type := type, size := size } := by
    rw [hdr1]
    exact getData_cons_self (getSha256 content) (selectStorage ws) _ _ rfl rfl
  have hd := saveBlob_ok_dedup o2 st1 content size type ws n2 lm2 m2 st2 _ hsome h2
  refine ⟨?_, hd.2.1, ?_, ?_⟩
  · rw [hd.2.1, hdr1, countData_cons_self (getSha256 content) (selectStorage ws) _ _ rfl rfl,
      h0]
  · rw [hd.2.2, getBlobRow_createBlob_other _ _ _ _ _ _ _ (fun hc => hn hc.2), hbr1,
      getBlobRow_createBlob_self]
  · rw [hd.2.2, getBlobRow_createBlob_self]

/-- Witness for claim C2: ingesting the two bytes [1, 2] as name a and then as name
b in tenant w leaves exactly one data row for the content hash. -/
theorem c2_witness :
    countData
      ((saveBlob oNone
        (saveBlob oNone emptyState [1, 2] 2 ("text/plain") ("w") ("a") 5).2
        [1, 2] 2 ("text/plain") ("w") ("b") 6).2).dataRows
      (getSha256 [1, 2]) (selectStorage ("w")) = 1 := by
  exact (c2_identical_content_single_data_row oNone oNone emptyState [1, 2] 2
    ("text/plain") ("w") ("a") ("b") 5 6
    (metaOf 2 ("text/plain") ("a") 5) (metaOf 2 ("text/plain") ("b") 6)
    (saveBlob oNone emptyState [1, 2] 2 ("text/plain") ("w") ("a") 5).2
    (saveBlob oNone
      (saveBlob oNone emptyState [1, 2] 2 ("text/plain") ("w") ("a") 5).2
      [1, 2] 2 ("text/plain") ("w") ("b") 6).2
    (by decide) rfl rfl rfl).1

/-- World for the delete scenarios: name n resolves to a live three-byte object. -/
def stC4 : State :=
  { emptyState with
      dataRows := [{ hash := 9, location := "w", filename := 3, type := "text/plain",
                     size := 3 }],
      blobRows := [{ workspace := "w", name := "n", hash := 9, location := "w",
                     deleted := false }],
      objects := [(("w", 3),
        { content := [1, 2, 3], httpMetadata := some hmPlain, md5 := none,
          uploaded := 0, httpEtag := "e4" })] }

/-- The full request for name n. -/
def reqC4 : BlobReq :=
  { workspace := "w", name := "n", range := none }

/-- Counterexample to claim C4 as stated: a GET caches the 200 response, the DELETE
succeeds with 204 but never touches the edge cache, and the subsequent GET is served
from the cache with status 200 instead of the not-found the claim requires. -/
theorem c4_cached_get_after_delete :
    (handleBlobGet stC4 reqC4).1.status = 200 ∧
    (handleBlobDelete oNone (handleBlobGet stC4 reqC4).2 reqC4).1.status = 204 ∧
    (handleBlobGet
       (handleBlobDelete oNone (handleBlobGet stC4 reqC4).2 reqC4).2 reqC4).1.status = 200 := by
  exact ⟨rfl, rfl, rfl⟩

/-- Claim C4 as amended: after a successful delete of (ws, n) the handler answers
204; every subsequent HEAD answers not-found; every subsequent GET answers not-found
unless its URL is served from the edge response cache; the data rows are untouched;
the bucket objects and the cache are untouched; and the name resolution of every
other key is unchanged, so content stays resolvable through any other blob pointing
at the same hash. -/
theorem c4_delete_read_semantics (o : Oracle) (st : State) (ws n : String)
    (hdb : o.dbThrows = false) :
    (handleBlobDelete o st { workspace := ws, name := n, range := none }).1.status = 204 ∧
    (∀ r, handleBlobHead
        (handleBlobDelete o st { workspace := ws, name := n, range := none }).2
        { workspace := ws, name := n, range := r } = response404) ∧
    (∀ r, cacheMatch
        (handleBlobDelete o st { workspace := ws, name := n, range := none }).2.cache
        (blobURL ws n) = none →
      (handleBlobGet
        (handleBlobDelete o st { workspace := ws, name := n, range := none }).2
        { workspace := ws, name := n, range := r }).1 = response404) ∧
    (handleBlobDelete o st { workspace := ws, name := n, range := none }).2.dataRows =
      st.dataRows ∧
    (handleBlobDelete o st { workspace := ws, name := n, range := none }).2.objects =
      st.objects ∧
    (handleBlobDelete o st { workspace := ws, name := n, range := none }).2.cache =
      st.cache ∧
    (∀ ws2 n2, ¬(ws2 = ws ∧ n2 = n) →
      dbGetBlob (handleBlobDelete o st { workspace := ws, name := n, range := none }).2
        ws2 n2 = dbGetBlob st ws2 n2) := by
  have hst : (handleBlobDelete o st { workspace := ws, name := n, range := none }).2 =
      { st with blobRows := deleteBlob st.blobRows ws n,
                videoDeletes := (ws, n) :: st.videoDeletes } := by
    unfold handleBlobDelete deleteVideo
    rw [hdb]
    simp
  refine ⟨?_, ?_, ?_, ?_, ?_, ?_, ?_⟩
  · unfold handleBlobDelete
    rw [hdb]
    simp
  · intro r
    rw [hst]
    unfold handleBlobHead dbGetBlob
    cases hb : getBlobRow st.blobRows ws n with
    | none => simp [getBlobRow_deleteBlob_self, hb]
    | some b =>
      cases hd : getData st.dataRows b.hash b.location with
      | none => simp [getBlobRow_deleteBlob_self, hb, hd]
      | some d => simp [getBlobRow_deleteBlob_self, hb, hd]
  · intro r hmiss
    rw [hst] at hmiss ⊢
    unfold handleBlobGet dbGetBlob
    simp only [] at hmiss
    cases hb : getBlobRow st.blobRows ws n with
    | none => simp [getBlobRow_deleteBlob_self, hb, hmiss]
    | some b =>
      cases hd : getData st.dataRows b.hash b.location with
      | none => simp [getBlobRow_deleteBlob_self, hb, hd, hmiss]
      | some d => simp [getBlobRow_deleteBlob_self, hb, hd, hmiss]
  · rw [hst]
  · rw [hst]
  · rw [hst]
  · intro ws2 n2 hne
    rw [hst]
    unfold dbGetBlob
    rw [getBlobRow_deleteBlob_other _ _ _ _ _ hne]

/-- Witness for claim C4 at the concrete delete scenario: the delete answers 204 and
a HEAD for the deleted name afterwards answers not-found. -/
theorem c4_witness :
    (handleBlobDelete oNone stC4 { workspace := "w", name := "n", range := none }).1.status
      = 204 ∧
    handleBlobHead
      (handleBlobDelete oNone stC4 { workspace := "w", name := "n", range := none }).2
      { workspace := "w", name := "n", range := none } = response404 := by
  have h := c4_delete_read_semantics oNone stC4 ("w") ("n") rfl
  exact ⟨h.1, h.2.1 none⟩

/-- Claim C5 as amended: whenever the large ingestion path or the reconciliation
path loses the dedup race (a data row already exists for the computed hash), the
cleanup delete of the just-uploaded object is attempted and recorded; when it
succeeds the request succeeds, but when it fails the error propagates and the
request fails, since the handler awaits the delete instead of logging and
swallowing it. -/
theorem c5_cleanup_delete_attempted_and_propagates (o : Oracle) (st : State) :
    (∀ content size type ws n lm d,
      hashLimit < size →
      o.putFails st.rng = false →
      getData st.dataRows (getSha256 content) (selectStorage ws) = some d →
      (saveBlob o st content size type ws n lm).2.deletes =
          (selectStorage ws, st.rng) :: st.deletes ∧
        (o.deleteFails st.rng = false →
          (saveBlob o st content size type ws n lm).1 =
            Except.ok (metaOf size type n lm)) ∧
        (o.deleteFails st.rng = true →
          (saveBlob o st content size type ws n lm).1 =
            Except.error ("failed to delete file"))) ∧
    (∀ ws n fn obj hm dg d,
      getObject st.objects (selectStorage ws) fn = some obj →
      obj.httpMetadata = some hm →
      obj.md5 = some dg →
      getData st.dataRows (digestToUUID dg) (selectStorage ws) = some d →
      (handleBlobUploaded o st ws n fn).2.deletes =
          (selectStorage ws, fn) :: st.deletes ∧
        (o.deleteFails fn = false → (handleBlobUploaded o st ws n fn).1 = Except.ok ()) ∧
        (o.deleteFails fn = true →
          (handleBlobUploaded o st ws n fn).1 = Except.error ("failed to delete file"))) := by
  constructor
  · intro content size type ws n lm d hsz hput hgd
    have hsz2 : ¬size ≤ hashLimit := fun hle => absurd hsz (Nat.not_lt.mpr hle)
    refine ⟨?_, ?_, ?_⟩
    · by_cases hdel : o.deleteFails st.rng = true
      · rw [saveBlob_large_dedup_delfail o st content size type ws n lm d hsz2 hgd hput hdel]
      · rw [saveBlob_large_dedup_delok o st content size type ws n lm d hsz2 hgd hput
          (Bool.not_eq_true _ ▸ hdel)]
    · intro hdel
      rw [saveBlob_large_dedup_delok o st content size type ws n lm d hsz2 hgd hput hdel]
    · intro hdel
      rw [saveBlob_large_dedup_delfail o st content size type ws n lm d hsz2 hgd hput hdel]
  · intro ws n fn obj hm dg d hobj hhm hmd5 hgd
    unfold handleBlobUploaded bucketDelete
    simp only [hobj, hhm, hmd5, hgd]
    refine ⟨?_, ?_, ?_⟩
    · by_cases hdel : o.deleteFails fn = true
      · simp [hdel]
      · simp [hdel]
    · intro hdel
      simp [hdel]
    · intro hdel
      simp [hdel]

/-- Oracle on which every bucket delete fails. -/
def oDelFail : Oracle :=
  { putFails := fun _ => false, deleteFails := fun _ => true,
    copyVideoFails := fun _ => false, dbThrows := false }

/-- The data row that wins the dedup race against the three-byte content. -/
def dRowC5 : DataRow :=
  { hash := getSha256 [1, 2, 3], location := "w", filename := 9, type := "t", size := 3 }

/-- World for the large-path dedup race: the content hash is already stored. -/
def stC5 : State :=
  { emptyState with dataRows := [dRowC5] }

/-- An out-of-band object with a bucket checksum whose hash is already stored. -/
def objC5 : R2Obj :=
  { content := [1, 2, 3], httpMetadata := some hmPlain, md5 := some [7], uploaded := 0,
    httpEtag := "e5" }

/-- The data row that wins the dedup race against the reconciled object. -/
def dRowC5b : DataRow :=
  { hash := digestToUUID [7], location := "w", filename := 9, type := "t", size := 3 }

/-- World for the reconciliation dedup race. -/
def stC5b : State :=
  { emptyState with dataRows := [dRowC5b], objects := [(("w", 4), objC5)] }

/-- Counterexample to claim C5 as stated: on a large-path ingestion that loses the
dedup race, a failing cleanup delete makes saveBlob throw, so the caller request
fails, although the cleanup attempt was made; the claim requires the failure to be
logged and never to fail the caller. -/
theorem c5_cleanup_failure_fails_caller :
    (saveBlob oDelFail stC5 [1, 2, 3] (hashLimit + 1) ("t") ("w") ("n") 0).1 =
      Except.error ("failed to delete file") ∧
    (saveBlob oDelFail stC5 [1, 2, 3] (hashLimit + 1) ("t") ("w") ("n") 0).2.deletes =
      [("w", 0)] := by
  exact ⟨rfl, rfl⟩

/-- Witness for claim C5: the amended semantics applied to the two concrete race
scenarios, with a delete-failing oracle. -/
theorem c5_witness :
    (saveBlob oDelFail stC5 [1, 2, 3] (hashLimit + 1) ("t") ("w") ("n") 0).2.deletes =
      [("w", 0)] ∧
    (handleBlobUploaded oDelFail stC5b ("w") ("n") 4).1 =
      Except.error ("failed to delete file") := by
  have h1 := (c5_cleanup_delete_attempted_and_propagates oDelFail stC5).1
    [1, 2, 3] (hashLimit + 1) ("t") ("w") ("n") 0 dRowC5
    (Nat.lt_succ_self hashLimit) rfl rfl
  have h2 := (c5_cleanup_delete_attempted_and_propagates oDelFail stC5b).2
    ("w") ("n") 4 objC5 hmPlain [7] dRowC5b rfl rfl rfl rfl
  exact ⟨h1.1, h2.2.2 rfl⟩

/-- Claim C6: on the small path (size at most hashLimit) the content hash is fully
computed before the upload decision. When a data row already exists for
(hash, location), no bucket write happens and the only change besides the consumed
random draw is the blob upsert; otherwise the bytes are stored under the freshly
generated key st.rng and the data insert plus blob upsert are committed together. -/
theorem c6_small_path_hash_before_upload (o : Oracle) (st : State) (content : Bytes)
    (size : Nat) (type ws n : String) (lm : Nat) (hsz : size ≤ hashLimit) :
    (∀ d, getData st.dataRows (getSha256 content) (selectStorage ws) = some d →
      saveBlob o st content size type ws n lm =
        (Except.ok (metaOf size type n lm),
         { st with
             blobRows := createBlob st.blobRows ws n (getSha256 content) (selectStorage ws),
             rng := st.rng + 1 })) ∧
    (getData st.dataRows (getSha256 content) (selectStorage ws) = none →
     o.putFails st.rng = false →
      saveBlob o st content size type ws n lm =
        (Except.ok (metaOf size type n lm), freshState st content size type ws n lm) ∧
      (freshState st content size type ws n lm).objects =
        ((selectStorage ws, st.rng),
          mkObj content { contentType := some type, cacheControl := some cacheControl,
                          lastModified := lm }) ::
          st.objects.filter (fun e => !(e.1.1 == selectStorage ws && e.1.2 == st.rng)) ∧
      (freshState st content size type ws n lm).dataRows =
        { hash := getSha256 content, location := selectStorage ws, filename := st.rng,
          type := type, size := size } :: st.dataRows ∧
      (freshState st content size type ws n lm).blobRows =
        createBlob st.blobRows ws n (getSha256 content) (selectStorage ws)) := by
  constructor
  · intro d hgd
    exact saveBlob_small_dedup o st content size type ws n lm d hsz hgd
  · intro hgd hput
    have hfields := freshState_fields st content size type ws n lm hgd
    exact ⟨saveBlob_small_fresh o st content size type ws n lm hsz hgd hput, rfl,
      hfields.1, hfields.2.1⟩

/-- Witness for claim C6: a two-byte upload into the empty world takes the fresh
branch of the small path. -/
theorem c6_witness :
    saveBlob oNone emptyState [1, 2] 2 ("text/plain") ("w") ("a") 7 =
      (Except.ok (metaOf 2 ("text/plain") ("a") 7),
       freshState emptyState [1, 2] 2 ("text/plain") ("w") ("a") 7) := by
  exact ((c6_small_path_hash_before_upload oNone emptyState [1, 2] 2 ("text/plain")
    ("w") ("a") 7 (by decide)).2 rfl rfl).1

/-- Claim C7: a file part whose content type is in the streaming media family and
whose save succeeded yields a success outcome carrying the stored metadata, and the
video copy is triggered and recorded, whatever the copy failure oracle says; a copy
failure never turns the outcome into an error. -/
theorem c7_video_copy_failure_does_not_fail_part (o : Oracle) (ws : String)
    (st : State) (f : FormFile) (m : BlobMetadata)
    (hv : strStartsWith f.type ("video/") = true)
    (hok : (saveBlob o st f.content f.size f.type ws f.name f.lastModified).1 =
      Except.ok m) :
    processFile o ws st f =
      ((f.key, Except.ok m),
       copyVideo o (saveBlob o st f.content f.size f.type ws f.name f.lastModified).2
         ws f.name) ∧
    (copyVideo o (saveBlob o st f.content f.size f.type ws f.name f.lastModified).2
        ws f.name).copies =
      (ws, f.name, !(o.copyVideoFails f.name)) ::
        (saveBlob o st f.content f.size f.type ws f.name f.lastModified).2.copies := by
  constructor
  · unfold processFile
    simp [hok, hv]
  · rfl

/-- Oracle on which every video copy fails. -/
def oCopyFail : Oracle :=
  { putFails := fun _ => false, deleteFails := fun _ => false,
    copyVideoFails := fun _ => true, dbThrows := false }

/-- A video file part. -/
def fVid : FormFile :=
  { key := "k", name := "v.mp4", type := "video/mp4", lastModified := 1, size := 3,
    content := [1, 2, 3] }

/-- Witness for claim C7: with the copy failing, the part outcome still reports the
stored metadata and the failed copy attempt is recorded. -/
theorem c7_witness :
    (processFile oCopyFail ("w") emptyState fVid).1 =
      (("k"), Except.ok (metaOf 3 ("video/mp4") ("v.mp4") 1)) ∧
    (processFile oCopyFail ("w") emptyState fVid).2.copies = [("w", "v.mp4", false)] := by
  have h := c7_video_copy_failure_does_not_fail_part oCopyFail ("w") emptyState fVid
    (metaOf 3 ("video/mp4") ("v.mp4") 1) rfl rfl
  constructor
  · rw [h.1]
    rfl
  · rw [h.1]
    rfl

/-- Claim C8: the form-data batch yields exactly one outcome per file part, the
outcome at each position is exactly what processing that part alone on the state
left by its predecessors yields (so no failure aborts the batch or erases sibling
outcomes), and every success outcome has its blob row stored in the final state. -/
theorem c8_batch_per_part_isolation (o : Oracle) (ws : String) (st : State)
    (files : List FormFile) :
    (handleUploadFormData o ws st files).1.length = files.length ∧
    (∀ i f, files.get? i = some f →
      (handleUploadFormData o ws st files).1.get? i =
        some ((processFile o ws (handleUploadFormData o ws st (files.take i)).2 f).1)) ∧
    (∀ i f m, files.get? i = some f →
      (handleUploadFormData o ws st files).1.get? i = some (f.key, Except.ok m) →
      (getBlobRow (handleUploadFormData o ws st files).2.blobRows ws f.name).isSome
        = true) := by
  exact ⟨processFiles_length o ws files st,
    fun i f hf => processFiles_get o ws files st i f hf,
    fun i f m hf he => processFiles_ok_blobKey o ws files st i f m hf he⟩

/-- Oracle on which only the bucket put of filename 0 fails, making exactly the
first file of a batch started at rng 0 fail. -/
def oPut0Fails : Oracle :=
  { putFails := fun k => k == 0, deleteFails := fun _ => false,
    copyVideoFails := fun _ => false, dbThrows := false }

/-- The file part whose put fails. -/
def fBad : FormFile :=
  { key := "k1", name := "a", type := "text/plain", lastModified := 1, size := 2,
    content := [1, 2] }

/-- The sibling file part that succeeds. -/
def fGood : FormFile :=
  { key := "k2", name := "b", type := "text/plain", lastModified := 2, size := 3,
    content := [4, 5, 6] }

/-- Witness for claim C8: in a two-part batch whose first part fails its upload, the
second part still gets its own outcome, and the batch reports the error tag for the
first part next to the stored metadata of the second. -/
theorem c8_witness :
    (handleUploadFormData oPut0Fails ("w") emptyState [fBad, fGood]).1.get? 1 =
      some ((processFile oPut0Fails ("w")
        (handleUploadFormData oPut0Fails ("w") emptyState ([fBad, fGood].take 1)).2
        fGood).1) ∧
    (handleUploadFormData oPut0Fails ("w") emptyState [fBad, fGood]).1 =
      [(("k1"), Except.error ("failed to upload file")),
       (("k2"), Except.ok (metaOf 3 ("text/plain") ("b") 2))] := by
  refine ⟨(c8_batch_per_part_isolation oPut0Fails ("w") emptyState [fBad, fGood]).2.1
    1 fGood rfl, rfl⟩

end Datalake
